import Mathlib

/-!
Shallow embedding of `typeorm-graphql-pagination` (src/index.ts): the cursor
codec `encodeCursor`/`decodeCursor` and the `paginate` function, together with
theorems settling the specification claims.

Modelling conventions:
* The external `opaqueid` codec (`encode`/`decode`) is an injective
  string-to-string bijection with `decode ∘ encode = id`; it is modelled as the
  identity, so cursor strings coincide with their decoded payloads.
* JavaScript `undefined` is modelled by `Option.none`; `null` in `PageInfo`
  fields is likewise `none`.
* JavaScript numbers arising from `split[3] * 1` are modelled by `JsNum`
  (`nan` or a rational value).  The string-to-number coercion models the
  decimal productions of the JS grammar (sign, digits, fractional part);
  the hexadecimal/octal/binary, exponent and `Infinity` productions are not
  modelled — no encoded cursor payload and no claim involves them.
* The data source (TypeORM query builder / repository) is modelled by the
  full ordered table as a `List Entity`: `getCount` is its length and
  `skip s |>.take t |>.getMany()` is `(table.drop s).take t`.
-/

/-- JsNum models a JavaScript number produced by numeric coercion: either NaN
or a rational value. -/
inductive JsNum where
  | nan : JsNum
  | val (q : ℚ) : JsNum
deriving DecidableEq

/-- JS unary negation on a coerced number. -/
def jsNeg : JsNum → JsNum
  | .nan => .nan
  | .val q => .val (-q)

/-- Decimal digit test, `'0' ≤ c ≤ '9'`, as in the JS decimal grammar. -/
def isDig (c : Char) : Bool := 48 ≤ c.toNat && c.toNat ≤ 57

/-- JS whitespace test (space, tab, LF, CR, VT, FF) used by `ToNumber`
trimming; the Unicode space productions are not modelled (unused). -/
def isWs (c : Char) : Bool :=
  c.toNat = 32 || c.toNat = 9 || c.toNat = 10 || c.toNat = 13 ||
  c.toNat = 11 || c.toNat = 12

/-- Trim leading and trailing whitespace from a character list. -/
def jsTrim (l : List Char) : List Char :=
  ((l.dropWhile isWs).reverse.dropWhile isWs).reverse

/-- Value of a most-significant-first decimal digit string, accumulator
style (the usual positional reading). -/
def digitsValAux (acc : Nat) : List Char → Nat
  | [] => acc
  | c :: cs => digitsValAux (acc * 10 + (c.toNat - 48)) cs

/-- Value of a most-significant-first decimal digit string. -/
def digitsVal (l : List Char) : Nat := digitsValAux 0 l

/-- Unsigned part of the JS decimal grammar: `digits`, `digits.digits`,
`digits.`, or `.digits`; anything else is NaN. -/
def parseUnsigned (l : List Char) : JsNum :=
  let ip := l.takeWhile isDig
  let rest := l.dropWhile isDig
  match rest with
  | [] => if ip = [] then .nan else .val (digitsVal ip)
  | c :: frac =>
    if c = '.' then
      if frac.all isDig && (!ip.isEmpty || !frac.isEmpty) then
        .val ((digitsVal ip : ℚ) + (digitsVal frac : ℚ) / (10 : ℚ) ^ frac.length)
      else .nan
    else .nan

/-- JS `ToNumber` on a trimmed character list: empty means `0`, an optional
sign precedes the unsigned decimal literal. -/
def jsStrToNumberCore : List Char → JsNum
  | [] => .val 0
  | c :: rest =>
    if c = '+' then parseUnsigned rest
    else if c = '-' then jsNeg (parseUnsigned rest)
    else parseUnsigned (c :: rest)

/-- JS `ToNumber` on a string (decimal productions; see the module comment
for the elided productions). -/
def jsStrToNumber (s : String) : JsNum := jsStrToNumberCore (jsTrim s.data)

/-- JS `ToNumber` applied to `split[i]`, which may be `undefined`
(`ToNumber undefined = NaN`). -/
def jsToNumber : Option String → JsNum
  | none => .nan
  | some s => jsStrToNumber s

/-- Model of JS `String.prototype.split('|')` on the character list: splits at
every `'|'`, keeping empty parts, and always returns at least one part. -/
def splitBarChars : List Char → List (List Char)
  | [] => [[]]
  | c :: cs =>
    if c = '|' then [] :: splitBarChars cs
    else
      match splitBarChars cs with
      | [] => [[c]]
      | h :: t => (c :: h) :: t

/-- Model of JS `cursor.split('|')` as a list of strings. -/
def splitBar (s : String) : List String := (splitBarChars s.data).map String.mk

/-- Errors thrown by the library, as JS exception values: the source's
`InvalidCursorError`, `InvalidCursorTypeError(expected, actual)` (the actual
tag may be `undefined`), a plain `Error(message)`, a runtime `TypeError` from
an `undefined` property access, and a failure of the external data source. -/
inductive JsError where
  | invalidCursor
  | invalidCursorType (expected : String) (actual : Option String)
  | jsError (msg : String)
  | typeError
  | sourceError
deriving DecidableEq

/-- Decoded cursor object as built at src/index.ts:105-109: `id` is
`split[2]` (possibly `undefined`), `type` is `split[1]` (equal to the expected
type by the guard on line 103), `index` is `split[3] * 1`. -/
structure JsCursor where
  id : Option String
  type : String
  index : JsNum
deriving DecidableEq

deriving instance DecidableEq for Except

/-- Decimal digit character for a digit value. -/
def digitChar : Nat → Char
  | 0 => '0'
  | 1 => '1'
  | 2 => '2'
  | 3 => '3'
  | 4 => '4'
  | 5 => '5'
  | 6 => '6'
  | 7 => '7'
  | 8 => '8'
  | 9 => '9'
  | _ => '!'

/-- Decimal digits of a number, least significant first, with a fuel
argument making the recursion structural (any fuel at least the number is
enough, since dividing by ten strictly shrinks a positive number). -/
def natDigitsRevFuel : Nat → Nat → List Char
  | 0, _ => []
  | fuel + 1, n =>
    if n = 0 then [] else digitChar (n % 10) :: natDigitsRevFuel fuel (n / 10)

/-- Decimal digits of a positive number, least significant first. -/
def natDigitsRev (n : Nat) : List Char := natDigitsRevFuel n n

/-- Decimal representation of a natural number, as produced by JS
number-to-string conversion `${index}` for a non-negative integer index. -/
def natToDecimal (n : Nat) : List Char :=
  if n = 0 then ['0'] else (natDigitsRev n).reverse

/-- Model of src/index.ts:88-90, `encodeCursor(id, type, index)`: the opaque
encoding of the payload string `C|<type>|<id>|<index>` (the external opaque
codec is modelled as the identity). -/
def encodeCursor (id : String) (typeTag : String) (index : Nat) : String :=
  String.mk ('C' :: '|' :: typeTag.data ++ '|' :: id.data ++ '|' :: natToDecimal index)

/-- Model of src/index.ts:97-110, `decodeCursor(cursor, type)`: split the
decoded payload on `'|'`; throw `InvalidCursorError` unless the first field is
`C`; throw `InvalidCursorTypeError` unless the second field equals the
expected type; otherwise return `{ id: split[2], type: split[1],
index: split[3] * 1 }`. -/
def decodeSplit (split : List String) (typeTag : String) : Except JsError JsCursor :=
  if split.get? 0 ≠ some "C" then .error .invalidCursor
  else if split.get? 1 ≠ some typeTag then
    .error (.invalidCursorType typeTag (split.get? 1))
  else .ok { id := split.get? 2, type := typeTag, index := jsToNumber (split.get? 3) }

/-- Model of src/index.ts:97-110 (continued): `decodeCursor` is `decodeSplit`
applied to the split payload. -/
def decodeCursor (cursor : String) (typeTag : String) : Except JsError JsCursor :=
  decodeSplit (splitBar cursor) typeTag

/-- Entity row returned by the data source; `paginate` only reads its stable
`id` field (src/index.ts requires entities expose `id`). -/
structure Entity where
  id : String
deriving DecidableEq

/-- OrderDirection from src/index.ts:154-157. -/
inductive OrderDirection where
  | ASC
  | DESC
deriving DecidableEq

/-- Order object from src/index.ts:162-171; the generic order-field is
modelled as a string. -/
structure Order where
  direction : OrderDirection
  field : String

/-- FindOptions from src/index.ts:176-189; optional fields are `Option`. -/
structure FindOptions where
  first : Nat
  orderBy : Option Order
  after : Option String

/-- PaginateOptions from src/index.ts:194-219; the two optional query-source
handles are modelled by their presence flags (their data is the `table`
argument of `paginate`). -/
structure PaginateOptions where
  type : String
  «alias» : String
  validateCursor : Option Bool
  orderFieldToKey : String → String
  hasQueryBuilder : Bool
  hasRepository : Bool

/-- Edge from src/index.ts:137-140. -/
structure Edge (T : Type) where
  node : T
  cursor : String
deriving DecidableEq

/-- PageInfo from src/index.ts:115-132; the source assigns `null` to absent
cursors, modelled as `none`. -/
structure PageInfo where
  endCursor : Option String
  startCursor : Option String
  hasNextPage : Bool
  hasPreviousPage : Bool
deriving DecidableEq

/-- Connection from src/index.ts:145-149. -/
structure Connection (T : Type) where
  totalCount : Nat
  pageInfo : PageInfo
  edges : List (Edge T)
deriving DecidableEq

/-- JS truthiness of an optional string: `undefined` and the empty string are
falsy, every other string is truthy. -/
def jsTruthyStr : Option String → Bool
  | none => false
  | some s => !s.isEmpty

/-- JS truthiness of an optional boolean: `undefined` is falsy. -/
def jsTruthyBool : Option Bool → Bool
  | none => false
  | some b => b

/-- Conversion of the decoded cursor index to a natural offset for the data
source. -/
def jsNumToNat? : JsNum → Option Nat
  | .nan => none
  | .val q => if 0 ≤ q.num ∧ q.den = 1 then some q.num.toNat else none

/-- Windowed fetch from the ordered table, src/index.ts:270-273:
`query.skip(skip).take(dbTake).getMany()` returns the rows of the ordered
result set from offset `skip`, at most `dbTake` of them. -/
def fetchWindow (table : List Entity) (skipN dbTake : Nat) : List Entity :=
  (table.drop skipN).take dbTake

/-- Edge assembly loop, src/index.ts:280-291: iterate `i` from `1` if
`findOptions.after` is truthy else `0`, up to (excluding) `results.length`
when fewer than `dbTake` rows came back, else `results.length - 1`; each kept
row becomes an edge with cursor `encodeCursor(results[i].id, type, i + skip)`. -/
def buildEdges (typeTag : String) (afterT : Bool) (skipN dbTake : Nat)
    (results : List Entity) : List (Edge Entity) :=
  let start := if afterT then 1 else 0
  let stop := if results.length < dbTake then results.length else results.length - 1
  (List.enumFrom start ((results.take stop).drop start)).map
    (fun p => { node := p.2, cursor := encodeCursor p.2.id typeTag (p.1 + skipN) })

/-- Page info assembly, src/index.ts:293-298: `edges[0] ? edges[0].cursor :
null`, `edges[edges.length - 1] ? ... : null` (JS indexing at `-1` of the
empty array is `undefined`, hence falsy), `hasNextPage = (results.length ===
dbTake)`, `hasPreviousPage = (skip !== 0)`. -/
def mkPageInfo (edges : List (Edge Entity)) (resultsLen dbTake skipN : Nat) :
    PageInfo :=
  { startCursor := (edges.get? 0).map Edge.cursor
    endCursor := (edges.get? (edges.length - 1)).map Edge.cursor
    hasNextPage := resultsLen == dbTake
    hasPreviousPage := !(skipN == 0) }

/-- Cursor validation, src/index.ts:274-278: when a decoded cursor exists
(the `decodedCursor` variable is truthy) and `options.validateCursor` is
truthy, compare `decodedCursor.id` with `results[0].id`; when `results` is
empty, `results[0]` is `undefined` and the `.id` access raises a raw
`TypeError`; on mismatch an `InvalidCursorError` is thrown. -/
def validateStep (decoded : Option JsCursor) (validate : Bool)
    (results : List Entity) : Except JsError Unit :=
  match decoded, validate with
  | some c, true =>
    match results.get? 0 with
    | none => .error .typeError
    | some r0 => if c.id ≠ some r0.id then .error .invalidCursor else .ok ()
  | some _, false => .ok ()
  | none, _ => .ok ()

/-- Successful-path result of `paginate`, src/index.ts:280-304: the connection
built from the fetched window, with `totalCount` the count of the full
ordered result set. -/
def connAssemble (table : List Entity) (fo : FindOptions) (o : PaginateOptions)
    (skipN dbTake : Nat) : Connection Entity :=
  { totalCount := table.length
    pageInfo := mkPageInfo
      (buildEdges o.type (jsTruthyStr fo.after) skipN dbTake (fetchWindow table skipN dbTake))
      (fetchWindow table skipN dbTake).length dbTake skipN
    edges := buildEdges o.type (jsTruthyStr fo.after) skipN dbTake (fetchWindow table skipN dbTake) }

/-- Continuation of `paginate` after the cursor branch, src/index.ts:247-304:
query-source check, then the unguarded `findOptions.orderBy.field` access
(src/index.ts:260) which raises a raw `TypeError` when `orderBy` is
`undefined` (the computed order key itself is handed to the external source,
whose ordering is already reflected in `table`, so it does not otherwise
affect the result), count, windowed fetch, cursor validation, edge assembly
and page info.  A non-natural decoded skip is rejected by the external data
source (`sourceError`); no claim exercises that path. -/
def paginateCont (table : List Entity) (fo : FindOptions) (o : PaginateOptions)
    (decoded : Option JsCursor) (skip : JsNum) (dbTake : Nat) :
    Except JsError (Connection Entity) :=
  if o.hasQueryBuilder || o.hasRepository then
    match fo.orderBy with
    | none => .error .typeError
    | some _ob =>
      match jsNumToNat? skip with
      | none => .error .sourceError
      | some skipN =>
        match validateStep decoded (jsTruthyBool o.validateCursor)
            (fetchWindow table skipN dbTake) with
        | .error e => .error e
        | .ok _ => .ok (connAssemble table fo o skipN dbTake)
  else .error (.jsError "A QueryBuilder or Repository object must be provided to paginate.")

/-- Model of src/index.ts:226-305, `paginate(findOptions, options)`: when
`findOptions.after` is truthy, decode it (propagating decode errors), set
`skip` to the decoded index and fetch `first + 2` rows; otherwise `skip = 0`
and fetch `first + 1` rows. -/
def paginate (table : List Entity) (fo : FindOptions) (o : PaginateOptions) :
    Except JsError (Connection Entity) :=
  if jsTruthyStr fo.after then
    match decodeCursor (fo.after.getD "") o.type with
    | .error e => .error e
    | .ok c => paginateCont table fo o (some c) c.index (fo.first + 2)
  else
    paginateCont table fo o none (.val 0) (fo.first + 1)

/-- Window size requested from the data source, src/index.ts:243-245:
`first + 2` when `findOptions.after` is truthy, else `first + 1`. -/
def pagTake (fo : FindOptions) : Nat :=
  if jsTruthyStr fo.after then fo.first + 2 else fo.first + 1

/-- Specification of the offset used by a `paginate` call: `0` without a
truthy cursor, and the (natural) decoded cursor index with one. -/
def pagSkipSpec (fo : FindOptions) (o : PaginateOptions) (skipN : Nat) : Prop :=
  (jsTruthyStr fo.after = false ∧ skipN = 0) ∨
  (∃ c, jsTruthyStr fo.after = true ∧
    decodeCursor (fo.after.getD "") o.type = .ok c ∧ jsNumToNat? c.index = some skipN)

/-- Fixture: pagination options with validation enabled, backed by a
repository. -/
def oT : PaginateOptions :=
  { type := "T", «alias» := "t", validateCursor := some true,
    orderFieldToKey := fun s => s, hasQueryBuilder := false, hasRepository := true }

/-- Fixture: an ascending order on `id`. -/
def obId : Option Order := some { direction := .ASC, field := "id" }

/-- Fixture: a three-row ordered table. -/
def tbl3 : List Entity := [{ id := "a" }, { id := "b" }, { id := "c" }]

/-- Fixture: a ten-row ordered table. -/
def tbl10 : List Entity :=
  [{ id := "a" }, { id := "b" }, { id := "c" }, { id := "d" }, { id := "e" },
   { id := "f" }, { id := "g" }, { id := "h" }, { id := "i" }, { id := "j" }]

/-- Fixture: find options for a middle page, cursor at index 2. -/
def foMid : FindOptions :=
  { first := 2, orderBy := obId, after := some (encodeCursor "c" "T" 2) }

/-- Fixture: the connection returned for the middle-page call. -/
def connMid : Connection Entity :=
  { totalCount := 10,
    pageInfo :=
      { endCursor := some (encodeCursor "e" "T" 4),
        startCursor := some (encodeCursor "d" "T" 3),
        hasNextPage := true, hasPreviousPage := true },
    edges :=
      [{ node := { id := "d" }, cursor := encodeCursor "d" "T" 3 },
       { node := { id := "e" }, cursor := encodeCursor "e" "T" 4 }] }

/-! Helper lemmas about digits, trimming, parsing and splitting. -/

theorem isDig_digitChar (d : Nat) (h : d < 10) : isDig (digitChar d) = true := by
  have hall : ∀ e : Fin 10, isDig (digitChar e.val) = true := by decide
  exact hall ⟨d, h⟩

theorem toNat_digitChar (d : Nat) (h : d < 10) : (digitChar d).toNat = 48 + d := by
  have hall : ∀ e : Fin 10, (digitChar e.val).toNat = 48 + e.val := by decide
  exact hall ⟨d, h⟩

theorem isDig_ne (c : Char) (h : isDig c = true) :
    c ≠ '+' ∧ c ≠ '-' ∧ c ≠ '|' ∧ c ≠ '.' := by
  refine ⟨?_, ?_, ?_, ?_⟩ <;> intro hc <;> subst hc <;> exact absurd h (by decide)

theorem isWs_of_isDig (c : Char) (h : isDig c = true) : isWs c = false := by
  simp only [isDig, Bool.and_eq_true, decide_eq_true_eq] at h
  simp only [isWs, Bool.or_eq_false_iff, decide_eq_false_iff_not]
  omega

theorem digitsValAux_append_singleton (acc : Nat) (xs : List Char) (c : Char) :
    digitsValAux acc (xs ++ [c]) = digitsValAux acc xs * 10 + (c.toNat - 48) := by
  induction xs generalizing acc with
  | nil => rfl
  | cons d ds ih => exact ih (acc * 10 + (d.toNat - 48))

theorem digitsVal_append_singleton (xs : List Char) (c : Char) :
    digitsVal (xs ++ [c]) = digitsVal xs * 10 + (c.toNat - 48) :=
  digitsValAux_append_singleton 0 xs c

theorem natDigitsRevFuel_digits (fuel : Nat) :
    ∀ n, ∀ c ∈ natDigitsRevFuel fuel n, isDig c = true := by
  induction fuel with
  | zero => intro n c hc; simp [natDigitsRevFuel] at hc
  | succ fuel ih =>
    intro n c hc
    by_cases h0 : n = 0
    · simp [natDigitsRevFuel, h0] at hc
    · simp only [natDigitsRevFuel, if_neg h0, List.mem_cons] at hc
      rcases hc with hc | hc
      · subst hc; exact isDig_digitChar _ (Nat.mod_lt _ (by omega))
      · exact ih _ c hc

theorem digitsVal_natDigitsRevFuel (fuel : Nat) :
    ∀ n, n ≤ fuel → digitsVal (natDigitsRevFuel fuel n).reverse = n := by
  induction fuel with
  | zero =>
    intro n hn
    have : n = 0 := by omega
    subst this; rfl
  | succ fuel ih =>
    intro n hn
    by_cases h0 : n = 0
    · subst h0; rfl
    · have hdle : n / 10 ≤ fuel := by
        have := Nat.div_lt_self (Nat.pos_of_ne_zero h0) (by omega : 1 < 10)
        omega
      simp only [natDigitsRevFuel, if_neg h0, List.reverse_cons]
      rw [digitsVal_append_singleton, ih _ hdle,
        toNat_digitChar _ (Nat.mod_lt _ (by omega))]
      omega

theorem digitsVal_natToDecimal (n : Nat) : digitsVal (natToDecimal n) = n := by
  by_cases h : n = 0
  · subst h; rfl
  · simp only [natToDecimal, if_neg h, natDigitsRev]
    exact digitsVal_natDigitsRevFuel n n le_rfl

theorem natToDecimal_digits (n : Nat) : ∀ c ∈ natToDecimal n, isDig c = true := by
  intro c hc
  by_cases h : n = 0
  · subst h
    rw [show natToDecimal 0 = ['0'] from rfl, List.mem_singleton] at hc
    subst hc; decide
  · simp only [natToDecimal, if_neg h, natDigitsRev, List.mem_reverse] at hc
    exact natDigitsRevFuel_digits n n c hc

theorem natToDecimal_ne_nil (n : Nat) : natToDecimal n ≠ [] := by
  by_cases h : n = 0
  · subst h; decide
  · obtain ⟨m, rfl⟩ := Nat.exists_eq_succ_of_ne_zero h
    simp [natToDecimal, natDigitsRev, natDigitsRevFuel]

theorem bar_not_mem_natToDecimal (n : Nat) : '|' ∉ natToDecimal n := by
  intro hm
  exact (isDig_ne _ (natToDecimal_digits n _ hm)).2.2.1 rfl

theorem dropWhile_eq_self_of_all_false {p : Char → Bool} {l : List Char}
    (h : ∀ c ∈ l, p c = false) : l.dropWhile p = l := by
  cases l with
  | nil => rfl
  | cons c cs => simp [List.dropWhile, h c (List.mem_cons_self c cs)]

theorem takeWhile_eq_self_of_all_true {p : Char → Bool} {l : List Char}
    (h : ∀ c ∈ l, p c = true) : l.takeWhile p = l := by
  induction l with
  | nil => rfl
  | cons c cs ih =>
    simp [List.takeWhile, h c (List.mem_cons_self c cs),
      ih (fun d hd => h d (List.mem_cons_of_mem c hd))]

theorem dropWhile_eq_nil_of_all_true {p : Char → Bool} {l : List Char}
    (h : ∀ c ∈ l, p c = true) : l.dropWhile p = [] := by
  induction l with
  | nil => rfl
  | cons c cs ih =>
    simp [List.dropWhile, h c (List.mem_cons_self c cs),
      ih (fun d hd => h d (List.mem_cons_of_mem c hd))]

theorem jsTrim_eq_self_of_digits {l : List Char} (h : ∀ c ∈ l, isDig c = true) :
    jsTrim l = l := by
  unfold jsTrim
  rw [dropWhile_eq_self_of_all_false (fun c hc => isWs_of_isDig c (h c hc)),
    dropWhile_eq_self_of_all_false
      (fun c hc => isWs_of_isDig c (h c (List.mem_reverse.mp hc))),
    List.reverse_reverse]

theorem jsStrToNumber_digits (l : List Char) (h1 : l ≠ [])
    (h2 : ∀ c ∈ l, isDig c = true) :
    jsStrToNumber (String.mk l) = .val (digitsVal l) := by
  unfold jsStrToNumber
  have hdata : (String.mk l).data = l := rfl
  rw [hdata, jsTrim_eq_self_of_digits h2]
  cases l with
  | nil => exact absurd rfl h1
  | cons c cs =>
    have hne := isDig_ne c (h2 c (List.mem_cons_self c cs))
    rw [show jsStrToNumberCore (c :: cs) =
        (if c = '+' then parseUnsigned cs
         else if c = '-' then jsNeg (parseUnsigned cs)
         else parseUnsigned (c :: cs)) from rfl,
      if_neg hne.1, if_neg hne.2.1]
    unfold parseUnsigned
    rw [takeWhile_eq_self_of_all_true h2, dropWhile_eq_nil_of_all_true h2]
    simp

theorem splitBarChars_nobar (xs : List Char) (h : '|' ∉ xs) :
    splitBarChars xs = [xs] := by
  induction xs with
  | nil => rfl
  | cons c cs ih =>
    have hc : c ≠ '|' := fun hc => h (hc ▸ List.mem_cons_self c cs)
    have hcs : '|' ∉ cs := fun hm => h (List.mem_cons_of_mem c hm)
    simp [splitBarChars, if_neg hc, ih hcs]

theorem splitBarChars_append_bar (xs ys : List Char) (h : '|' ∉ xs) :
    splitBarChars (xs ++ '|' :: ys) = xs :: splitBarChars ys := by
  induction xs with
  | nil => simp [splitBarChars]
  | cons c cs ih =>
    have hc : c ≠ '|' := fun hc => h (hc ▸ List.mem_cons_self c cs)
    have hcs : '|' ∉ cs := fun hm => h (List.mem_cons_of_mem c hm)
    simp only [List.cons_append, splitBarChars, if_neg hc, List.append_eq]
    rw [ih hcs]

theorem splitBar_encodeCursor (id typeTag : String) (n : Nat)
    (hid : '|' ∉ id.data) (ht : '|' ∉ typeTag.data) :
    splitBar (encodeCursor id typeTag n) =
      ["C", typeTag, id, String.mk (natToDecimal n)] := by
  unfold splitBar encodeCursor
  have hdata : (String.mk ('C' :: '|' :: typeTag.data ++ '|' :: id.data ++
      '|' :: natToDecimal n)).data =
      ['C'] ++ '|' :: (typeTag.data ++ '|' :: (id.data ++ '|' :: natToDecimal n)) := by
    simp
  rw [hdata, splitBarChars_append_bar _ _ (by decide),
    splitBarChars_append_bar _ _ ht, splitBarChars_append_bar _ _ hid,
    splitBarChars_nobar _ (bar_not_mem_natToDecimal n)]
  rfl

theorem splitBar_encodeCursor_front (id typeTag : String) (n : Nat)
    (ht : '|' ∉ typeTag.data) :
    ∃ rest, splitBar (encodeCursor id typeTag n) = "C" :: typeTag :: rest := by
  unfold splitBar encodeCursor
  have hdata : (String.mk ('C' :: '|' :: typeTag.data ++ '|' :: id.data ++
      '|' :: natToDecimal n)).data =
      ['C'] ++ '|' :: (typeTag.data ++ '|' :: (id.data ++ '|' :: natToDecimal n)) := by
    simp
  rw [hdata, splitBarChars_append_bar _ _ (by decide),
    splitBarChars_append_bar _ _ ht]
  exact ⟨_, rfl⟩

theorem decodeSplit_tagged (typeTag : String) (rest : List String) :
    decodeSplit ("C" :: typeTag :: rest) typeTag =
      .ok { id := rest.get? 0, type := typeTag, index := jsToNumber (rest.get? 1) } := by
  simp [decodeSplit]

/-- C2: for all valid `(id, type, index)` with a non-negative integer index
(validity meaning the id and type do not contain the `'|'` separator),
decoding the encoded cursor against the same type returns exactly the cursor
`{id, type, index}`; encoding round-trips. -/
theorem decode_encode_roundtrip (id typeTag : String) (index : Nat)
    (hid : '|' ∉ id.data) (ht : '|' ∉ typeTag.data) :
    decodeCursor (encodeCursor id typeTag index) typeTag =
      .ok { id := some id, type := typeTag, index := .val index } := by
  unfold decodeCursor
  rw [splitBar_encodeCursor id typeTag index hid ht]
  rw [show (["C", typeTag, id, String.mk (natToDecimal index)] : List String) =
    "C" :: typeTag :: [id, String.mk (natToDecimal index)] from rfl]
  rw [decodeSplit_tagged]
  have hnum : jsToNumber (some (String.mk (natToDecimal index))) = .val index := by
    show jsStrToNumber (String.mk (natToDecimal index)) = .val index
    rw [jsStrToNumber_digits _ (natToDecimal_ne_nil index) (natToDecimal_digits index),
      digitsVal_natToDecimal]
  simp [hnum]

/-- C2 witness: a concrete round-trip. -/
theorem decode_encode_roundtrip_witness :
    decodeCursor (encodeCursor "u1" "User" 3) "User" =
      .ok { id := some "u1", type := "User", index := .val 3 } :=
  decode_encode_roundtrip "u1" "User" 3 (by decide) (by decide)

/-- C7: decoding any well-formed cursor (encoded with a bar-free type tag)
against a different expected type fails with the type-mismatch error carrying
the expected and actual types, for every id and every index. -/
theorem decode_type_mismatch (id typeTag expected : String) (index : Nat)
    (ht : '|' ∉ typeTag.data) (hne : typeTag ≠ expected) :
    decodeCursor (encodeCursor id typeTag index) expected =
      .error (.invalidCursorType expected (some typeTag)) := by
  obtain ⟨rest, hsplit⟩ := splitBar_encodeCursor_front id typeTag index ht
  unfold decodeCursor
  rw [hsplit]
  simp [decodeSplit, hne]

/-- C7 witness: a `User` cursor fed to a `Post` pagination fails with the
type mismatch. -/
theorem decode_type_mismatch_witness :
    decodeCursor (encodeCursor "u1" "User" 0) "Post" =
      .error (.invalidCursorType "Post" (some "User")) :=
  decode_type_mismatch "u1" "User" "Post" 0 (by decide) (by decide)

/-- C4 counterexample: a payload with the right tag and a matching type but
fewer than the four expected fields does not fail; `decodeCursor` returns a
degenerate cursor with an `undefined`-free id taken from the third field and
a NaN index, so the claim that short or non-numeric payloads fail with
`MalformedCursor` is false. -/
theorem decode_short_payload_ok :
    decodeCursor "C|User|myid" "User" =
      .ok { id := some "myid", type := "User", index := .nan } := by decide

/-- C4 (amended): decoding fails with the source's `InvalidCursorError`
(MalformedCursor) exactly when the first `'|'`-field of the decoded payload
differs from the tag `C`; when the tag matches and the second field equals
the expected type, decoding always returns a cursor — even when the payload
has fewer than four fields or a non-numeric index (those yield an undefined
id or a NaN index instead of an error). -/
theorem decode_malformed_iff (s typeTag : String) :
    (decodeCursor s typeTag = .error .invalidCursor ↔ (splitBar s).get? 0 ≠ some "C") ∧
    ((splitBar s).get? 0 = some "C" → (splitBar s).get? 1 = some typeTag →
      ∃ c, decodeCursor s typeTag = .ok c) := by
  unfold decodeCursor decodeSplit
  constructor
  · constructor
    · intro h
      by_cases h0 : (splitBar s).get? 0 ≠ some "C"
      · exact h0
      · exfalso
        rw [if_neg h0] at h
        by_cases h1 : (splitBar s).get? 1 ≠ some typeTag
        · rw [if_pos h1] at h
          simp at h
        · rw [if_neg h1] at h
          simp at h
    · intro h0
      rw [if_pos h0]
  · intro h0 h1
    rw [if_neg (not_not.mpr h0), if_neg (not_not.mpr h1)]
    exact ⟨_, rfl⟩

/-- C4 amended-theorem witness: a concrete malformed payload fails with the
`InvalidCursorError`. -/
theorem decode_malformed_iff_witness :
    decodeCursor "X|2" "User" = .error .invalidCursor :=
  (decode_malformed_iff "X|2" "User").1.mpr (by decide)

theorem paginate_no_cursor (table : List Entity) (fo : FindOptions)
    (o : PaginateOptions) (hT : jsTruthyStr fo.after = false) :
    paginate table fo o = paginateCont table fo o none (.val 0) (fo.first + 1) := by
  unfold paginate
  rw [hT]
  rfl

theorem paginate_cursor_ok (table : List Entity) (fo : FindOptions)
    (o : PaginateOptions) (c : JsCursor) (hT : jsTruthyStr fo.after = true)
    (hdec : decodeCursor (fo.after.getD "") o.type = .ok c) :
    paginate table fo o = paginateCont table fo o (some c) c.index (fo.first + 2) := by
  unfold paginate
  rw [hT, if_pos rfl, hdec]

theorem paginate_cursor_err (table : List Entity) (fo : FindOptions)
    (o : PaginateOptions) (e : JsError) (hT : jsTruthyStr fo.after = true)
    (hdec : decodeCursor (fo.after.getD "") o.type = .error e) :
    paginate table fo o = .error e := by
  unfold paginate
  rw [hT, if_pos rfl, hdec]

theorem paginateCont_ok_inv (table : List Entity) (fo : FindOptions)
    (o : PaginateOptions) (decoded : Option JsCursor) (skip : JsNum)
    (dbTake : Nat) (conn : Connection Entity)
    (h : paginateCont table fo o decoded skip dbTake = .ok conn) :
    ∃ skipN, jsNumToNat? skip = some skipN ∧
      conn = connAssemble table fo o skipN dbTake := by
  unfold paginateCont at h
  split at h
  · split at h
    · exact absurd h (by simp)
    · split at h
      · exact absurd h (by simp)
      · rename_i skipN hskip
        split at h
        · exact absurd h (by simp)
        · exact ⟨skipN, hskip, (Except.ok.inj h).symm⟩
  · exact absurd h (by simp)

theorem paginate_ok_conn (table : List Entity) (fo : FindOptions)
    (o : PaginateOptions) (conn : Connection Entity) (skipN : Nat)
    (h : paginate table fo o = .ok conn) (hs : pagSkipSpec fo o skipN) :
    conn = connAssemble table fo o skipN (pagTake fo) := by
  rcases hs with ⟨hT, rfl⟩ | ⟨c, hT, hdec, hnat⟩
  · rw [paginate_no_cursor table fo o hT] at h
    obtain ⟨skipN', hnat', hconn⟩ := paginateCont_ok_inv _ _ _ _ _ _ _ h
    have h0 : skipN' = 0 := by
      rw [show jsNumToNat? (.val 0) = some 0 from by decide] at hnat'
      exact (Option.some.inj hnat').symm
    rw [hconn, h0]
    unfold pagTake
    rw [hT]
    rfl
  · rw [paginate_cursor_ok table fo o c hT hdec] at h
    obtain ⟨skipN', hnat', hconn⟩ := paginateCont_ok_inv _ _ _ _ _ _ _ h
    have heq : skipN' = skipN := Option.some.inj (hnat'.symm.trans hnat)
    rw [hconn, heq]
    unfold pagTake
    rw [hT]
    rfl

theorem buildEdges_length (tag : String) (afterT : Bool) (skipN dbTake : Nat)
    (results : List Entity) :
    (buildEdges tag afterT skipN dbTake results).length =
      (if results.length < dbTake then results.length else results.length - 1) -
        (if afterT then 1 else 0) := by
  have hstop : (if results.length < dbTake then results.length
      else results.length - 1) ≤ results.length := by
    split <;> omega
  simp only [buildEdges, List.length_map, List.enumFrom_length, List.length_drop,
    List.length_take]
  rw [Nat.min_eq_left hstop]

theorem buildEdges_getElem (tag : String) (afterT : Bool) (skipN dbTake : Nat)
    (results : List Entity) (k : Nat)
    (hk : (if afterT then 1 else 0) + k <
      (if results.length < dbTake then results.length else results.length - 1)) :
    (buildEdges tag afterT skipN dbTake results)[k]? =
      (results[(if afterT then 1 else 0) + k]?).map
        (fun r =>
          { node := r
            cursor := encodeCursor r.id tag ((if afterT then 1 else 0) + k + skipN) }) := by
  simp only [buildEdges, List.getElem?_map, List.getElem?_enumFrom, List.getElem?_drop]
  rw [List.getElem?_take_of_lt hk]
  cases hres : results[(if afterT then 1 else 0) + k]? with
  | none => rfl
  | some r => rfl

theorem buildEdges_getElem_none (tag : String) (afterT : Bool)
    (skipN dbTake : Nat) (results : List Entity) (k : Nat)
    (hk : (if results.length < dbTake then results.length else results.length - 1) ≤
      (if afterT then 1 else 0) + k) :
    (buildEdges tag afterT skipN dbTake results)[k]? = none := by
  apply List.getElem?_eq_none
  rw [buildEdges_length]
  omega

theorem edges_count_le (L w s first : Nat) (hlen : L ≤ w)
    (hw : (s = 1 ∧ w = first + 2) ∨ (s = 0 ∧ w = first + 1)) :
    (if L < w then L else L - 1) - s ≤ first := by
  rcases hw with ⟨rfl, rfl⟩ | ⟨rfl, rfl⟩ <;> split <;> omega

theorem connAssemble_edges_le (table : List Entity) (fo : FindOptions)
    (o : PaginateOptions) (skipN : Nat) :
    (connAssemble table fo o skipN (pagTake fo)).edges.length ≤ fo.first := by
  show (buildEdges o.type (jsTruthyStr fo.after) skipN (pagTake fo)
      (fetchWindow table skipN (pagTake fo))).length ≤ fo.first
  rw [buildEdges_length]
  refine edges_count_le _ _ _ _ (List.length_take_le _ _) ?_
  unfold pagTake
  cases jsTruthyStr fo.after
  · exact Or.inr ⟨rfl, rfl⟩
  · exact Or.inl ⟨rfl, rfl⟩

/-- C9: for every `paginate` call that returns a connection, the number of
edges is at most `findOptions.first`: the over-fetched validation and
lookahead rows never leak into the returned page. -/
theorem paginate_edges_le_first (table : List Entity) (fo : FindOptions)
    (o : PaginateOptions) (conn : Connection Entity)
    (hok : paginate table fo o = .ok conn) :
    conn.edges.length ≤ fo.first := by
  cases hT : jsTruthyStr fo.after with
  | false =>
    have hconn := paginate_ok_conn table fo o conn 0 hok (Or.inl ⟨hT, rfl⟩)
    rw [hconn]
    exact connAssemble_edges_le table fo o 0
  | true =>
    cases hdec : decodeCursor (fo.after.getD "") o.type with
    | error e =>
      rw [paginate_cursor_err table fo o e hT hdec] at hok
      exact absurd hok (by simp)
    | ok c =>
      rw [paginate_cursor_ok table fo o c hT hdec] at hok
      obtain ⟨skipN, hnat, hconn⟩ := paginateCont_ok_inv _ _ _ _ _ _ _ hok
      have htake : fo.first + 2 = pagTake fo := by
        unfold pagTake
        rw [hT]
        rfl
      rw [htake] at hconn
      rw [hconn]
      exact connAssemble_edges_le table fo o skipN

/-- C9 witness: a concrete full first page keeps only `first` edges. -/
theorem paginate_edges_le_first_witness :
    ({ totalCount := 3,
       pageInfo :=
         { endCursor := some (encodeCursor "b" "T" 1),
           startCursor := some (encodeCursor "a" "T" 0),
           hasNextPage := true, hasPreviousPage := false },
       edges :=
         [{ node := { id := "a" }, cursor := encodeCursor "a" "T" 0 },
          { node := { id := "b" }, cursor := encodeCursor "b" "T" 1 }] } :
      Connection Entity).edges.length ≤ 2 :=
  paginate_edges_le_first tbl3 { first := 2, orderBy := obId, after := none } oT _
    (by decide)

/-- C6: for every `paginate` call that returns a connection, `startCursor` is
the first edge's cursor (absent when there are no edges), `endCursor` is the
last edge's cursor (absent likewise), `hasNextPage` holds exactly when the
number of fetched rows equals the window size, `hasPreviousPage` holds
exactly when the skip offset is non-zero, and `totalCount` is the size of the
full ordered set; in particular an empty result set yields zero edges,
`hasNextPage = false`, absent start/end cursors and `totalCount = 0`. -/
theorem paginate_pageinfo (table : List Entity) (fo : FindOptions)
    (o : PaginateOptions) (conn : Connection Entity) (skipN : Nat)
    (hok : paginate table fo o = .ok conn) (hs : pagSkipSpec fo o skipN) :
    conn.pageInfo.startCursor = conn.edges.head?.map Edge.cursor ∧
    conn.pageInfo.endCursor = conn.edges.getLast?.map Edge.cursor ∧
    (conn.pageInfo.hasNextPage = true ↔
      (fetchWindow table skipN (pagTake fo)).length = pagTake fo) ∧
    (conn.pageInfo.hasPreviousPage = true ↔ skipN ≠ 0) ∧
    conn.totalCount = table.length ∧
    (table = [] → conn.edges = [] ∧ conn.pageInfo.hasNextPage = false ∧
      conn.pageInfo.startCursor = none ∧ conn.pageInfo.endCursor = none ∧
      conn.totalCount = 0) := by
  have hconn := paginate_ok_conn table fo o conn skipN hok hs
  subst hconn
  have htake : 1 ≤ pagTake fo := by
    unfold pagTake
    split <;> omega
  refine ⟨?_, ?_, ?_, ?_, rfl, ?_⟩
  · show ((buildEdges o.type (jsTruthyStr fo.after) skipN (pagTake fo)
        (fetchWindow table skipN (pagTake fo))).get? 0).map Edge.cursor = _
    rw [List.get?_eq_getElem?, List.head?_eq_getElem?]
    rfl
  · show ((buildEdges o.type (jsTruthyStr fo.after) skipN (pagTake fo)
        (fetchWindow table skipN (pagTake fo))).get?
          ((buildEdges o.type (jsTruthyStr fo.after) skipN (pagTake fo)
            (fetchWindow table skipN (pagTake fo))).length - 1)).map Edge.cursor = _
    rw [List.get?_eq_getElem?, List.getLast?_eq_getElem?]
    rfl
  · show (((fetchWindow table skipN (pagTake fo)).length == pagTake fo) = true) ↔ _
    exact beq_iff_eq
  · show ((!(skipN == 0)) = true) ↔ skipN ≠ 0
    simp
  · intro h
    subst h
    have hfw : fetchWindow ([] : List Entity) skipN (pagTake fo) = [] := by
      simp [fetchWindow]
    have hedges : buildEdges o.type (jsTruthyStr fo.after) skipN (pagTake fo)
        (fetchWindow ([] : List Entity) skipN (pagTake fo)) = [] := by
      rw [hfw]
      simp [buildEdges]
    refine ⟨hedges, ?_, ?_, ?_, rfl⟩
    · show ((fetchWindow ([] : List Entity) skipN (pagTake fo)).length ==
        pagTake fo) = false
      rw [hfw, show ([] : List Entity).length = 0 from rfl]
      exact beq_eq_false_iff_ne.mpr (by omega)
    · show ((buildEdges o.type (jsTruthyStr fo.after) skipN (pagTake fo)
        (fetchWindow ([] : List Entity) skipN (pagTake fo))).get? 0).map Edge.cursor = none
      rw [hedges]
      rfl
    · show ((buildEdges o.type (jsTruthyStr fo.after) skipN (pagTake fo)
        (fetchWindow ([] : List Entity) skipN (pagTake fo))).get?
          ((buildEdges o.type (jsTruthyStr fo.after) skipN (pagTake fo)
            (fetchWindow ([] : List Entity) skipN (pagTake fo))).length - 1)).map
          Edge.cursor = none
      rw [hedges]
      rfl

/-- C6 witness: the empty result set instance. -/
theorem paginate_pageinfo_witness :
    ({ totalCount := 0,
       pageInfo :=
         { endCursor := none, startCursor := none,
           hasNextPage := false, hasPreviousPage := false },
       edges := [] } : Connection Entity).pageInfo.hasNextPage = false := by
  have h := paginate_pageinfo [] { first := 2, orderBy := obId, after := none } oT
    { totalCount := 0,
      pageInfo :=
        { endCursor := none, startCursor := none,
          hasNextPage := false, hasPreviousPage := false },
      edges := [] } 0 (by decide) (Or.inl ⟨by decide, rfl⟩)
  exact (h.2.2.2.2.2 rfl).2.1

/-- C1: for every `paginate` call that returns a connection, edges are the
fetched rows from loop index `start` (1 when a truthy cursor was supplied,
0 otherwise) up to `stop`, which excludes the last fetched row exactly when
the fetched count equals the window size (`first + 2` with a cursor,
`first + 1` without, per `pagTake`); the edge at loop position `i = start + k`
is the table row at absolute offset `skip + i` and carries cursor
`encodeCursor(row.id, type, i + skip)` — the absolute index in the full
ordered set, not the loop-local index. -/
theorem paginate_edges_iteration (table : List Entity) (fo : FindOptions)
    (o : PaginateOptions) (conn : Connection Entity) (skipN : Nat)
    (hok : paginate table fo o = .ok conn) (hs : pagSkipSpec fo o skipN) (k : Nat) :
    ((if jsTruthyStr fo.after then 1 else 0) + k <
        (if (fetchWindow table skipN (pagTake fo)).length = pagTake fo
          then (fetchWindow table skipN (pagTake fo)).length - 1
          else (fetchWindow table skipN (pagTake fo)).length) →
      conn.edges[k]? =
        (table[skipN + ((if jsTruthyStr fo.after then 1 else 0) + k)]?).map
          (fun r =>
            { node := r
              cursor := encodeCursor r.id o.type
                ((if jsTruthyStr fo.after then 1 else 0) + k + skipN) })) ∧
    ((if (fetchWindow table skipN (pagTake fo)).length = pagTake fo
        then (fetchWindow table skipN (pagTake fo)).length - 1
        else (fetchWindow table skipN (pagTake fo)).length) ≤
        (if jsTruthyStr fo.after then 1 else 0) + k →
      conn.edges[k]? = none) := by
  have hconn := paginate_ok_conn table fo o conn skipN hok hs
  subst hconn
  have hlen : (fetchWindow table skipN (pagTake fo)).length ≤ pagTake fo :=
    List.length_take_le _ _
  have hstop :
      (if (fetchWindow table skipN (pagTake fo)).length = pagTake fo
        then (fetchWindow table skipN (pagTake fo)).length - 1
        else (fetchWindow table skipN (pagTake fo)).length) =
      (if (fetchWindow table skipN (pagTake fo)).length < pagTake fo
        then (fetchWindow table skipN (pagTake fo)).length
        else (fetchWindow table skipN (pagTake fo)).length - 1) := by
    by_cases h : (fetchWindow table skipN (pagTake fo)).length = pagTake fo
    · rw [if_pos h, if_neg (by omega)]
    · rw [if_neg h, if_pos (by omega)]
  rw [hstop]
  have hcode : (if (fetchWindow table skipN (pagTake fo)).length < pagTake fo
      then (fetchWindow table skipN (pagTake fo)).length
      else (fetchWindow table skipN (pagTake fo)).length - 1) ≤
      (fetchWindow table skipN (pagTake fo)).length := by
    split <;> omega
  constructor
  · intro hk
    show (buildEdges o.type (jsTruthyStr fo.after) skipN (pagTake fo)
        (fetchWindow table skipN (pagTake fo)))[k]? = _
    rw [buildEdges_getElem _ _ _ _ _ k hk]
    have hklt : (if jsTruthyStr fo.after then 1 else 0) + k < pagTake fo := by
      omega
    have hwin : (fetchWindow table skipN
        (pagTake fo))[(if jsTruthyStr fo.after then 1 else 0) + k]? =
        table[skipN + ((if jsTruthyStr fo.after then 1 else 0) + k)]? := by
      unfold fetchWindow
      rw [List.getElem?_take_of_lt hklt, List.getElem?_drop]
    rw [hwin]
  · intro hk
    show (buildEdges o.type (jsTruthyStr fo.after) skipN (pagTake fo)
        (fetchWindow table skipN (pagTake fo)))[k]? = none
    exact buildEdges_getElem_none _ _ _ _ _ k hk

/-- C1 witness: the middle-page instance, first retained row. -/
theorem paginate_edges_iteration_witness :
    connMid.edges[0]? = some { node := { id := "d" }, cursor := encodeCursor "d" "T" 3 } := by
  have h := paginate_edges_iteration tbl10 foMid oT connMid 2 (by decide)
    (Or.inr ⟨{ id := some "c", type := "T", index := .val 2 }, by decide, by decide,
      by decide⟩) 0
  exact (h.1 (by decide)).trans (by decide)

/-- C3 counterexample: with validation enabled, a cursor pointing past the end
of the data set (index 5 against a one-row table) makes the fetch window
empty, and `paginate` fails with a raw `TypeError` (the `.id` access on
`results[0] = undefined` at src/index.ts:277), not with the `CursorStale`
`InvalidCursorError` the claim asserts. -/
theorem paginate_stale_empty_window_typeError :
    paginate [{ id := "a" }]
      { first := 2, orderBy := obId, after := some (encodeCursor "a" "T" 5) } oT =
      .error .typeError ∧ JsError.typeError ≠ JsError.invalidCursor := by
  exact ⟨by decide, by decide⟩

/-- C3 (amended): whenever a truthy cursor was supplied and cursor validation
is enabled, `paginate` never returns a page whose first fetched row is
missing or mismatched: when the window is non-empty and its first row's id
differs from the decoded cursor id it fails with the `CursorStale`
`InvalidCursorError`; when the window is empty it fails with a raw
`TypeError` from the `results[0].id` access (rather than silently returning
an empty page). -/
theorem paginate_cursor_validation (table : List Entity) (fo : FindOptions)
    (o : PaginateOptions) (c : JsCursor) (skipN : Nat)
    (hT : jsTruthyStr fo.after = true)
    (hdec : decodeCursor (fo.after.getD "") o.type = .ok c)
    (hv : jsTruthyBool o.validateCursor = true)
    (hq : (o.hasQueryBuilder || o.hasRepository) = true)
    (hob : fo.orderBy.isSome = true)
    (hnat : jsNumToNat? c.index = some skipN) :
    (fetchWindow table skipN (fo.first + 2) = [] →
      paginate table fo o = .error .typeError) ∧
    (∀ r0, (fetchWindow table skipN (fo.first + 2)).head? = some r0 →
      c.id ≠ some r0.id → paginate table fo o = .error .invalidCursor) := by
  rw [paginate_cursor_ok table fo o c hT hdec]
  obtain ⟨ob, hob'⟩ := Option.isSome_iff_exists.mp hob
  unfold paginateCont
  rw [if_pos hq, hob', hnat, hv]
  constructor
  · intro hempty
    show (match validateStep (some c) true (fetchWindow table skipN (fo.first + 2)) with
      | .error e => Except.error e
      | .ok _ => Except.ok (connAssemble table fo o skipN (fo.first + 2))) =
      Except.error JsError.typeError
    rw [hempty]
    rfl
  · intro r0 hhead hne
    have hget : (fetchWindow table skipN (fo.first + 2)).get? 0 = some r0 := by
      rw [List.get?_eq_getElem?, ← List.head?_eq_getElem?]
      exact hhead
    have hval : validateStep (some c) true (fetchWindow table skipN (fo.first + 2)) =
        .error .invalidCursor := by
      show (match (fetchWindow table skipN (fo.first + 2)).get? 0 with
        | none => Except.error JsError.typeError
        | some r0 => if c.id ≠ some r0.id then Except.error JsError.invalidCursor
            else Except.ok ()) = Except.error JsError.invalidCursor
      rw [hget]
      show (if c.id ≠ some r0.id then Except.error JsError.invalidCursor
        else Except.ok ()) = Except.error JsError.invalidCursor
      rw [if_pos hne]
    show (match validateStep (some c) true (fetchWindow table skipN (fo.first + 2)) with
      | .error e => Except.error e
      | .ok _ => Except.ok (connAssemble table fo o skipN (fo.first + 2))) =
      Except.error JsError.invalidCursor
    rw [hval]

/-- C3 amended-theorem witness: a stale cursor whose id mismatches the first
fetched row fails with the `InvalidCursorError`. -/
theorem paginate_cursor_validation_witness :
    paginate tbl3 { first := 1, orderBy := obId, after := some (encodeCursor "zzz" "T" 0) }
      oT = .error .invalidCursor :=
  (paginate_cursor_validation tbl3
      { first := 1, orderBy := obId, after := some (encodeCursor "zzz" "T" 0) } oT
      { id := some "zzz", type := "T", index := .val 0 } 0
      (by decide) (by decide) (by decide) (by decide) (by decide) (by decide)).2
    { id := "a" } (by decide) (by decide)

/-- C5 counterexample: `findOptions.after` present but equal to the empty
string is falsy in JS, so `paginate` takes the no-cursor branch — it does not
decode the cursor (decoding `""` would fail with the malformed-cursor error)
and fetches `first + 1` rows instead of `first + 2`, returning a normal first
page. -/
theorem paginate_empty_after_not_decoded :
    paginate tbl3 { first := 1, orderBy := obId, after := some "" } oT =
      .ok { totalCount := 3,
            pageInfo :=
              { endCursor := some (encodeCursor "a" "T" 0),
                startCursor := some (encodeCursor "a" "T" 0),
                hasNextPage := true, hasPreviousPage := false },
            edges := [{ node := { id := "a" }, cursor := encodeCursor "a" "T" 0 }] } ∧
    decodeCursor "" oT.type = .error .invalidCursor := by
  exact ⟨by decide, by decide⟩

/-- C5 (amended): when `findOptions.after` is absent or the empty string
(falsy), `skip = 0` and the fetch window is `first + 1`; when it is present
and non-empty, it is decoded against the entity type (propagating the decode
errors), `skip` is the decoded index and the fetch window is `first + 2`. -/
theorem paginate_after_branches (table : List Entity) (fo : FindOptions)
    (o : PaginateOptions) :
    (jsTruthyStr fo.after = false →
      paginate table fo o = paginateCont table fo o none (.val 0) (fo.first + 1)) ∧
    (∀ s, fo.after = some s → s ≠ "" →
      ((∀ e, decodeCursor s o.type = .error e → paginate table fo o = .error e) ∧
       (∀ c, decodeCursor s o.type = .ok c →
         paginate table fo o =
           paginateCont table fo o (some c) c.index (fo.first + 2)))) := by
  constructor
  · intro hT
    exact paginate_no_cursor table fo o hT
  · intro s hafter hne
    have hT : jsTruthyStr fo.after = true := by
      rw [hafter]
      have h1 : s.isEmpty = false := by
        cases he : s.isEmpty
        · rfl
        · exact absurd ((String.isEmpty_iff s).mp he) hne
      show (!s.isEmpty) = true
      rw [h1]
      rfl
    have hgetD : fo.after.getD "" = s := by rw [hafter]; rfl
    constructor
    · intro e hdec
      apply paginate_cursor_err table fo o e hT
      rw [hgetD]
      exact hdec
    · intro c hdec
      apply paginate_cursor_ok table fo o c hT
      rw [hgetD]
      exact hdec

/-- C5 amended-theorem witness: a non-empty cursor is decoded and the
continuation runs with the decoded index and a `first + 2` window. -/
theorem paginate_after_branches_witness :
    paginate tbl3 { first := 1, orderBy := obId, after := some (encodeCursor "c" "T" 2) }
      oT =
      paginateCont tbl3
        { first := 1, orderBy := obId, after := some (encodeCursor "c" "T" 2) } oT
        (some { id := some "c", type := "T", index := .val 2 }) (.val 2) 3 :=
  ((paginate_after_branches tbl3
      { first := 1, orderBy := obId, after := some (encodeCursor "c" "T" 2) } oT).2
    (encodeCursor "c" "T" 2) rfl (by decide)).2
    { id := some "c", type := "T", index := .val 2 } (by decide)

/-- C8: contrary to the claim, `paginate` performs no page-size validation:
with `first = 0` (the `first <= 0` boundary) and a three-row table it does
not fail with any `InvalidPageSize` error but queries the source and returns
a connection with zero edges and `hasNextPage = true`. -/
theorem paginate_first_zero_no_error :
    paginate tbl3 { first := 0, orderBy := obId, after := none } oT =
      .ok { totalCount := 3,
            pageInfo :=
              { endCursor := none, startCursor := none,
                hasNextPage := true, hasPreviousPage := false },
            edges := [] } := by decide

/-- C10 counterexample: a call with `orderBy` absent but an undecodable
cursor fails with the malformed-cursor `InvalidCursorError` thrown by
`decodeCursor` (src/index.ts:236), not with the raw `TypeError` from the
`orderBy.field` access the claim asserts for every `orderBy`-absent call. -/
theorem paginate_missing_orderBy_cursor_error_first :
    paginate tbl3 { first := 1, orderBy := none, after := some "garbage" } oT =
      .error .invalidCursor ∧ JsError.invalidCursor ≠ JsError.typeError := by
  exact ⟨by decide, by decide⟩

/-- C10 (amended): although `FindOptions` declares `orderBy` optional,
`paginate` dereferences `findOptions.orderBy.field` without a guard
(src/index.ts:260): every call with `orderBy` absent that reaches that line —
i.e. whose cursor, if truthy, decodes successfully, and which has a query
source — fails with a raw `TypeError`, not a `Connection` and not an error of
the documented taxonomy; calls stopped earlier fail with the cursor-decode
error or the missing-query-source error instead. -/
theorem paginate_missing_orderBy_typeError (table : List Entity)
    (fo : FindOptions) (o : PaginateOptions)
    (hob : fo.orderBy = none)
    (hq : (o.hasQueryBuilder || o.hasRepository) = true)
    (hcur : jsTruthyStr fo.after = false ∨
      ∃ c, decodeCursor (fo.after.getD "") o.type = .ok c) :
    paginate table fo o = .error .typeError := by
  have hcont : ∀ decoded skip dbTake,
      paginateCont table fo o decoded skip dbTake = .error .typeError := by
    intro decoded skip dbTake
    unfold paginateCont
    rw [if_pos hq, hob]
  cases hT : jsTruthyStr fo.after with
  | false =>
    rw [paginate_no_cursor table fo o hT]
    exact hcont _ _ _
  | true =>
    rcases hcur with h | ⟨c, hdec⟩
    · rw [hT] at h
      exact absurd h (by decide)
    · rw [paginate_cursor_ok table fo o c hT hdec]
      exact hcont _ _ _

/-- C10 amended-theorem witness: `orderBy` absent, no cursor, repository
present: the call fails with the raw `TypeError`. -/
theorem paginate_missing_orderBy_typeError_witness :
    paginate tbl3 { first := 1, orderBy := none, after := none } oT =
      .error .typeError :=
  paginate_missing_orderBy_typeError tbl3 { first := 1, orderBy := none, after := none }
    oT rfl (by decide) (Or.inl (by decide))
